import Mathlib

/-!
Shallow embedding of `src/inilibrary/INILibrary.py`: a Robot Framework
keyword library wrapping Python's `configparser`.  The adapter state is the
pair of instance fields `config` / `inifile`; every keyword is embedded as a
pure function from the state (plus a file-system environment for `Load INI
File`) to a result together with the state after the call.  The parts of
Python's `configparser` that the adapter calls (`__contains__`,
`has_section`, `has_option`, `get`, `set`, `add_section`, `remove_option`,
`items`, and the `Interpolation` / `BasicInterpolation` classes) are
embedded from that library's behaviour; parser dictionaries are association
lists with unique keys.  Logging calls (`BuiltIn().log`) are an external
side channel and are not modelled.
-/

/-- Error kinds the embedded operations can signal.  In the Python source
every failure is a raised `Exception` with a distinguishing message (or a
`FileNotFoundError`, or one of `configparser`'s interpolation errors /
`ValueError`); the constructors stand for those distinct outcomes. -/
inductive INIErr where
  | notLoaded
  | fileNotFound
  | sectionNotFound
  | keyNotFound
  | interpBadRef
  | interpMissing
  | interpDepth
  | badValue
  deriving Repr, DecidableEq

/-- Entries of one parser dictionary: ordered key/value pairs. -/
abbrev Entries := List (String × String)

/-- Association-list lookup, modelling Python `dict.__getitem__` /
`__contains__` on the insertion-ordered dicts `configparser` uses. -/
def alookup {α : Type} (l : List (String × α)) (k : String) : Option α :=
  (l.find? (fun e => e.1 == k)).map (fun e => e.2)

/-- Models `str.lower` as applied by `RawConfigParser.optionxform` to every
option name (ASCII case folding suffices for the embedded strings). -/
def optionxform (s : String) : String :=
  String.mk (s.data.map Char.toLower)

/-- Rewrites the value stored under key `s` through `f`, leaving every
other binding untouched — the shape of an in-place mutation of one slot of
a Python dict. -/
def updateEntry {α : Type} (s : String) (f : α → α) (p : String × α) : String × α :=
  if p.1 == s then (p.1, f p.2) else p

/-- Models `dict.__setitem__ d k v`: an existing key keeps its position and
gets the new value, a new key is appended. -/
def dictSet (d : Entries) (k v : String) : Entries :=
  if (alookup d k).isSome then
    d.map (updateEntry k (fun _ => v))
  else
    d ++ [(k, v)]

/-- Models `d.copy(); d.update(u)` for string dicts: keys of `d` keep their
position (with the value from `u` when `u` also binds them), keys only in
`u` are appended in `u`'s order. -/
def dictUpdate (d u : Entries) : Entries :=
  d.map (fun e => ((e.1 : String), (alookup u e.1).getD e.2))
    ++ u.filter (fun e => (alookup d e.1).isNone)

/-- Models the core of `configparser._KEYCRE` (`%\(([^)]+)\)s`) applied just
after a `"%("` has been consumed: splits off a non-empty run of
non-`')'` characters followed by `')' 's'`, returning the reference name and
the remainder, or `none` when the pattern does not match. -/
def refCore (r : List Char) : Option (List Char × List Char) :=
  match r.dropWhile (fun ch => ch != ')') with
  | ')' :: 's' :: r3 =>
    if (r.takeWhile (fun ch => ch != ')')).isEmpty then none
    else some (r.takeWhile (fun ch => ch != ')'), r3)
  | _ => none

/-- Models one level of `BasicInterpolation._interpolate_some`'s scanning
loop: literal characters are copied, `%%` yields `%`, `%(name)s` is looked
up in the map `d` (recursively resolved through `resolve` when the fetched
value itself contains `%`), and any other use of `%` is a syntax error.
The `gas` parameter only bounds the recursion for Lean and is always called
with at least the length of the character list, so the `gas = 0` branch is
unreachable. -/
def scanGo (d : Entries) (resolve : String → Except INIErr (List Char)) :
    Nat → List Char → Except INIErr (List Char)
  | _, [] => .ok []
  | 0, l => .ok l
  | gas + 1, c :: r =>
    if c = '%' then
      match r with
      | '%' :: r2 => (scanGo d resolve gas r2).map (fun t => '%' :: t)
      | '(' :: r2 =>
        match refCore r2 with
        | none => .error .interpBadRef
        | some (nm, r3) =>
          match alookup d (optionxform (String.mk nm)) with
          | none => .error .interpMissing
          | some v =>
            if v.data.any (fun ch => ch == '%') then
              (resolve v).bind (fun tv =>
                (scanGo d resolve gas r3).map (fun t => tv ++ t))
            else
              (scanGo d resolve gas r3).map (fun t => v.data ++ t)
      | _ => .error .interpBadRef
    else
      (scanGo d resolve gas r).map (fun t => c :: t)

/-- Models `BasicInterpolation._interpolate_some` with its depth counter:
`fuel` is the number of nesting levels still allowed
(`MAX_INTERPOLATION_DEPTH = 10`; the top-level call runs at depth 1, and a
call at depth 11 raises `InterpolationDepthError`). -/
def interpDepthGo (d : Entries) : Nat → String → Except INIErr (List Char)
  | 0, _ => .error .interpDepth
  | fuel + 1, v => scanGo d (fun w => interpDepthGo d fuel w) v.data.length v.data

/-- Models `BasicInterpolation.before_get parser section option value d`:
resolve `%`-references in `value` against the merged map `d`. -/
def interpolateValue (d : Entries) (v : String) : Except INIErr String :=
  (interpDepthGo d 10 v).map (fun t => String.mk t)

/-- Models `str.replace "%%" ""` (the first pass of
`BasicInterpolation.before_set`): left-to-right, non-overlapping. -/
def stripDoublePct : List Char → List Char
  | [] => []
  | c :: r =>
    if c = '%' then
      match r with
      | '%' :: r2 => stripDoublePct r2
      | [] => [c]
      | c2 :: r2 => c :: stripDoublePct (c2 :: r2)
    else c :: stripDoublePct r

/-- Models `_KEYCRE.sub '' value` (the second pass of
`BasicInterpolation.before_set`): delete every non-overlapping `%(name)s`
match, scanning left to right.  `gas` only bounds recursion for Lean and is
always called with at least the list length, so the `gas = 0` branch is
unreachable. -/
def stripRefsGo : Nat → List Char → List Char
  | _, [] => []
  | 0, l => l
  | gas + 1, c :: r =>
    if c = '%' then
      match r with
      | '(' :: r2 =>
        match refCore r2 with
        | some (_, r3) => stripRefsGo gas r3
        | none => c :: stripRefsGo gas r
      | _ => c :: stripRefsGo gas r
    else
      c :: stripRefsGo gas r

/-- Models `BasicInterpolation.before_set`: after deleting `%%` pairs and
`%(name)s` references, no stray `%` may remain (else `ValueError`). -/
def beforeSetOk (v : String) : Bool :=
  (stripRefsGo (stripDoublePct v.data).length (stripDoublePct v.data)).all
    (fun ch => ch != '%')

/-- The in-memory `ConfigParser` object: the `[DEFAULT]` entries, the named
sections in order, and whether the parser interpolates on reads.
`load_INI_file` builds it with `interp = true` for the default
`ConfigParser()` (whose interpolation is `BasicInterpolation()`) and
`interp = false` when the keyword's flag is truthy (which selects the no-op
base class `configparser.Interpolation()`). -/
structure Config where
  defaults : Entries
  sections : List (String × Entries)
  interp : Bool
  deriving Repr, DecidableEq

/-- Models `RawConfigParser.has_section` (the `DEFAULT` section never
counts). -/
def Config.hasSection (c : Config) (s : String) : Bool :=
  (alookup c.sections s).isSome

/-- Models `section in parser` (`RawConfigParser.__contains__`): true for
the default section name `"DEFAULT"` or any existing section. -/
def Config.containsSection (c : Config) (s : String) : Bool :=
  s == "DEFAULT" || c.hasSection s

/-- Models `RawConfigParser.has_option section option`: an empty or
`"DEFAULT"` section name consults the defaults; otherwise the section's own
dict or the defaults.  The `NoSectionError` branch for a missing section is
returned as `false`; every adapter call site guards it behind
`section in parser`, which makes that branch unreachable there. -/
def Config.hasOptionB (c : Config) (s k : String) : Bool :=
  if s == "" || s == "DEFAULT" then
    (alookup c.defaults (optionxform k)).isSome
  else
    match alookup c.sections s with
    | some vars =>
      (alookup vars (optionxform k)).isSome
        || (alookup c.defaults (optionxform k)).isSome
    | none => false

/-- Models the variable map `configparser` builds for reads of a section
(`_unify_values` for `get`, `d = defaults.copy(); d.update(sections[s])`
for `items`): the defaults overlaid by the section's own entries.  The
`NoSectionError` branch for a missing section is unreachable behind the
adapter's guards and is rendered as the defaults alone. -/
def Config.mergedMap (c : Config) (s : String) : Entries :=
  if s == "DEFAULT" then c.defaults
  else dictUpdate c.defaults ((alookup c.sections s).getD [])

/-- Models `parser.get section key` after the adapter's guards: fetch the
(case-folded) key from the merged map and apply `before_get`, which
interpolates exactly when the parser was built with `BasicInterpolation`.
The `none` branch (`NoOptionError`) is unreachable behind the adapter's
`has_option` guard. -/
def Config.getValue (c : Config) (s k : String) : Except INIErr String :=
  let d := c.mergedMap s
  match alookup d (optionxform k) with
  | none => .error .keyNotFound
  | some v => if c.interp then interpolateValue d v else .ok v

/-- Models the list comprehension in `parser.items section`: every entry of
the merged map, with `before_get` applied to each value. -/
def interpItems (d : Entries) : Entries → Except INIErr Entries
  | [] => .ok []
  | e :: r =>
    (interpolateValue d e.2).bind (fun w =>
      (interpItems d r).map (fun t => (e.1, w) :: t))

/-- Models `parser.items section` after the adapter's containment guard. -/
def Config.itemsE (c : Config) (s : String) : Except INIErr Entries :=
  let d := c.mergedMap s
  if c.interp then interpItems d d else .ok d

/-- Models `parser.set section key value` after the adapter has ensured the
section is present: `before_set` validation first (only the interpolating
parser checks anything), then the write, which goes to the defaults for an
empty or `"DEFAULT"` section name and to the named section otherwise. -/
def Config.setOpt (c : Config) (s k v : String) : Except INIErr Config :=
  if c.interp && !(beforeSetOk v) then .error .badValue
  else
    .ok
      (if s == "" || s == "DEFAULT" then
        { c with defaults := dictSet c.defaults (optionxform k) v }
      else
        { c with
          sections :=
            c.sections.map (updateEntry s (fun d => dictSet d (optionxform k) v)) })

/-- Models `parser.add_section section` (the adapter only calls it when the
section is not yet present, so the `DuplicateSectionError` branch is
unreachable). -/
def Config.addSection (c : Config) (s : String) : Config :=
  { c with sections := c.sections ++ [(s, [])] }

/-- Models `parser.remove_option section key` after the adapter's guards:
delete the (case-folded) key from the defaults for an empty or `"DEFAULT"`
section name, else from the named section's dict. -/
def Config.removeOpt (c : Config) (s k : String) : Config :=
  if s == "" || s == "DEFAULT" then
    { c with defaults := c.defaults.filter (fun e => e.1 != optionxform k) }
  else
    { c with
      sections :=
        c.sections.map
          (updateEntry s (fun d => d.filter (fun e => e.1 != optionxform k))) }

/-- The adapter's instance state: `self.config` (the loaded parser, `None`
before a successful load) and `self.inifile` (the path recorded by the last
successful load). -/
structure INILibrary where
  config : Option Config
  inifile : Option String
  deriving Repr, DecidableEq

/-- The parsed content of one INI file: its `[DEFAULT]` entries and its
named sections, as `configparser.read` would store them (option names
already case-folded by `optionxform`). -/
structure INIData where
  defaults : Entries
  sections : List (String × Entries)
  deriving Repr, DecidableEq

/-- The file-system environment `Load INI File` reads through: the process
working directory (`os.getcwd()`) and the existing INI files, keyed by full
path and represented by their parsed structure (the text-level tokenizer of
`configparser.read` is external to this repository). -/
structure FileSystem where
  cwd : String
  files : List (String × INIData)
  deriving Repr, DecidableEq

/-- Models `os.path.exists` plus `configparser.read` for the joined path. -/
def FileSystem.readFile (fs : FileSystem) (path : String) : Option INIData :=
  alookup fs.files path

/-- Embeds `INILibrary.load_INI_file` (keyword `Load INI File`): join the
path with the working directory, fail with `FileNotFoundError` when it does
not exist (leaving both fields untouched), otherwise replace `self.config`
with a freshly parsed `ConfigParser` — interpolating exactly when the flag
is falsy — and record the path in `self.inifile`. -/
def load_INI_file (fs : FileSystem) (st : INILibrary) (file_path : String)
    (interpolation : Bool) : Except INIErr Unit × INILibrary :=
  let full_path := fs.cwd ++ "/" ++ file_path
  match fs.readFile full_path with
  | none => (.error .fileNotFound, st)
  | some d =>
    (.ok (),
      { config := some { defaults := d.defaults, sections := d.sections, interp := !interpolation },
        inifile := some file_path })

/-- Embeds `INILibrary.get_INI_value` (keyword `Get INI Value`). -/
def get_INI_value (st : INILibrary) (s k : String) :
    Except INIErr String × INILibrary :=
  match st.config with
  | none => (.error .notLoaded, st)
  | some c =>
    if !(c.containsSection s) then (.error .sectionNotFound, st)
    else if !(c.hasOptionB s k) then (.error .keyNotFound, st)
    else (c.getValue s k, st)

/-- Embeds `INILibrary.set_INI_value` (keyword `Set INI Value`).  The
section is added before `parser.set` runs, so when `before_set` rejects the
value the already-added section remains — as in the Python source, where
`add_section` has mutated `self.config` before `set` raises. -/
def set_INI_value (st : INILibrary) (s k v : String) :
    Except INIErr Unit × INILibrary :=
  match st.config with
  | none => (.error .notLoaded, st)
  | some c =>
    let c1 := if c.containsSection s then c else c.addSection s
    match c1.setOpt s k v with
    | .ok c2 => (.ok (), { st with config := some c2 })
    | .error e => (.error e, { st with config := some c1 })

/-- Embeds `INILibrary.remove_INI_key` (keyword `Remove INI Key`). -/
def remove_INI_key (st : INILibrary) (s k : String) :
    Except INIErr Unit × INILibrary :=
  match st.config with
  | none => (.error .notLoaded, st)
  | some c =>
    if !(c.containsSection s) then (.error .sectionNotFound, st)
    else if !(c.hasOptionB s k) then (.error .keyNotFound, st)
    else (.ok (), { st with config := some (c.removeOpt s k) })

/-- Embeds `INILibrary.get_all_keys_and_values` (keyword `Get All Keys And
Values`): `dict(parser.items(section))`, whose keys are already unique, so
the entry list itself stands for the returned dictionary. -/
def get_all_keys_and_values (st : INILibrary) (s : String) :
    Except INIErr Entries × INILibrary :=
  match st.config with
  | none => (.error .notLoaded, st)
  | some c =>
    if !(c.containsSection s) then (.error .sectionNotFound, st)
    else (c.itemsE s, st)

/-- Embeds `INILibrary.get_values_list` (keyword `Get Values List`).  Its
`except` block reads `Exception(e)` with no `raise`, so every failure
raised inside the `try` — not-loaded, section-not-found, the zero-items
check, and interpolation errors from `parser.items` — is swallowed and the
method falls through returning Python `None`, embedded as `none`. -/
def get_values_list (st : INILibrary) (s k : String) :
    Option (List String) × INILibrary :=
  match st.config with
  | none => (none, st)
  | some c =>
    if !(c.containsSection s) then (none, st)
    else
      match c.itemsE s with
      | .error _ => (none, st)
      | .ok items =>
        if items.length == 0 then (none, st)
        else (some ((items.filter (fun e => e.1 == k)).map (fun e => e.2)), st)

/-- Embeds `INILibrary.section_exists` (keyword `Section Exists`):
`parser.has_section`, which never counts `"DEFAULT"`. -/
def section_exists (st : INILibrary) (s : String) :
    Except INIErr Bool × INILibrary :=
  match st.config with
  | none => (.error .notLoaded, st)
  | some c => (.ok (c.hasSection s), st)

/-- Embeds `INILibrary.key_exists` (keyword `Key Exists`). -/
def key_exists (st : INILibrary) (s k : String) :
    Except INIErr Bool × INILibrary :=
  match st.config with
  | none => (.error .notLoaded, st)
  | some c =>
    if !(c.containsSection s) then (.error .sectionNotFound, st)
    else (.ok (c.hasOptionB s k), st)

/-! Concrete states used by the counterexamples and witnesses. -/

/-- Section content with a literal value, a same-section reference, and a
dangling reference. -/
def exSec : Entries := [("a", "x"), ("b", "%(a)s"), ("c", "%(q)s")]

/-- An interpolating (default-constructed) parser holding `exSec`. -/
def cfgI : Config := { defaults := [], sections := [("s", exSec)], interp := true }

/-- Adapter state after loading `cfgI` from `app.ini`. -/
def stI : INILibrary := { config := some cfgI, inifile := some "app.ini" }

/-- An interpolating parser whose section has no dangling reference. -/
def cfgI2 : Config :=
  { defaults := [], sections := [("s2", [("a", "x"), ("b", "%(a)s")])], interp := true }

/-- Adapter state holding `cfgI2`. -/
def stI2 : INILibrary := { config := some cfgI2, inifile := none }

/-- A non-interpolating parser with a default entry shadowing nothing. -/
def cfgD : Config :=
  { defaults := [("d", "v")], sections := [("s", [("a", "x")])], interp := false }

/-- Adapter state holding `cfgD`. -/
def stD : INILibrary := { config := some cfgD, inifile := none }

/-- The unloaded adapter (`self.config is None`). -/
def stU : INILibrary := { config := none, inifile := none }

/-- A loaded parser whose only section is empty. -/
def cfgE : Config := { defaults := [], sections := [("e", [])], interp := false }

/-- Adapter state holding `cfgE`. -/
def stE : INILibrary := { config := some cfgE, inifile := none }

/-- A loaded parser with no sections at all. -/
def cfg0 : Config := { defaults := [], sections := [], interp := false }

/-- Adapter state holding `cfg0`. -/
def st0 : INILibrary := { config := some cfg0, inifile := none }

/-- A plain non-interpolating parser used by the witnesses. -/
def cfgW : Config :=
  { defaults := [], sections := [("s", [("a", "x"), ("p", "8080")])], interp := false }

/-- Adapter state holding `cfgW`. -/
def stW : INILibrary := { config := some cfgW, inifile := some "w.ini" }

/-- The parsed content behind `fsEx`. -/
def dataEx : INIData := { defaults := [], sections := [("s", exSec)] }

/-- A file system whose working directory holds one INI file `app.ini`. -/
def fsEx : FileSystem := { cwd := "/w", files := [("/w/app.ini", dataEx)] }

/-! Association-list lemmas. -/

theorem alookup_cons_pos {α : Type} {p : String × α} {l : List (String × α)} {k : String}
    (h : (p.1 == k) = true) : alookup (p :: l) k = some p.2 := by
  simp [alookup, List.find?, h]

theorem alookup_cons_neg {α : Type} {p : String × α} {l : List (String × α)} {k : String}
    (h : (p.1 == k) = false) : alookup (p :: l) k = alookup l k := by
  simp [alookup, List.find?, h]

theorem alookup_append_some {α : Type} {l₁ : List (String × α)} (l₂ : List (String × α))
    {k : String} {v : α} (h : alookup l₁ k = some v) :
    alookup (l₁ ++ l₂) k = some v := by
  induction l₁ with
  | nil => simp [alookup] at h
  | cons p l ih =>
    cases hp : (p.1 == k) with
    | false =>
      rw [alookup_cons_neg hp] at h
      rw [List.cons_append, alookup_cons_neg hp]
      exact ih h
    | true =>
      rw [alookup_cons_pos hp] at h
      rw [List.cons_append, alookup_cons_pos hp]
      exact h

theorem alookup_append_none {α : Type} {l₁ : List (String × α)} (l₂ : List (String × α))
    {k : String} (h : alookup l₁ k = none) :
    alookup (l₁ ++ l₂) k = alookup l₂ k := by
  induction l₁ with
  | nil => rfl
  | cons p l ih =>
    cases hp : (p.1 == k) with
    | false =>
      rw [alookup_cons_neg hp] at h
      rw [List.cons_append, alookup_cons_neg hp]
      exact ih h
    | true =>
      rw [alookup_cons_pos hp] at h
      exact absurd h (by simp)

theorem alookup_map_updateEntry_self {α : Type} (l : List (String × α)) (s : String)
    (f : α → α) :
    alookup (l.map (updateEntry s f)) s = (alookup l s).map f := by
  induction l with
  | nil => rfl
  | cons p l ih =>
    cases hp : (p.1 == s) with
    | false =>
      have he : updateEntry s f p = p := by simp [updateEntry, hp]
      rw [List.map_cons, he, alookup_cons_neg hp, alookup_cons_neg hp]
      exact ih
    | true =>
      have he : updateEntry s f p = (p.1, f p.2) := by simp [updateEntry, hp]
      rw [List.map_cons, he, alookup_cons_pos (p := (p.1, f p.2)) hp, alookup_cons_pos hp]
      rfl

theorem alookup_map_updateEntry_ne {α : Type} (l : List (String × α)) {s t : String}
    (f : α → α) (h : t ≠ s) :
    alookup (l.map (updateEntry s f)) t = alookup l t := by
  induction l with
  | nil => rfl
  | cons p l ih =>
    cases hp : (p.1 == t) with
    | false =>
      have hk : (updateEntry s f p).1 = p.1 := by
        unfold updateEntry; split <;> rfl
      have hp' : ((updateEntry s f p).1 == t) = false := by rw [hk]; exact hp
      rw [List.map_cons, alookup_cons_neg hp', alookup_cons_neg hp]
      exact ih
    | true =>
      have hpt : p.1 = t := by simpa using hp
      have hps : (p.1 == s) = false := by
        rw [hpt]
        exact beq_eq_false_iff_ne.mpr h
      have he : updateEntry s f p = p := by simp [updateEntry, hps]
      rw [List.map_cons, he, alookup_cons_pos hp, alookup_cons_pos hp]

theorem alookup_dictSet_self (d : Entries) (k v : String) :
    alookup (dictSet d k v) k = some v := by
  unfold dictSet
  cases hs : (alookup d k).isSome with
  | false =>
    rw [if_neg (by simp [hs])]
    have hn : alookup d k = none := by
      cases h' : alookup d k
      · rfl
      · rw [h'] at hs; simp at hs
    rw [alookup_append_none _ hn]
    exact alookup_cons_pos (by simp)
  | true =>
    rw [if_pos (by simp [hs])]
    rw [alookup_map_updateEntry_self]
    obtain ⟨w, hw⟩ := Option.isSome_iff_exists.mp hs
    rw [hw]
    rfl

theorem alookup_mapMerge {d : Entries} (u : Entries) {k : String} {w : String}
    (h : alookup d k = some w) :
    alookup (d.map (fun e => ((e.1 : String), (alookup u e.1).getD e.2))) k
      = some ((alookup u k).getD w) := by
  induction d with
  | nil => simp [alookup] at h
  | cons p l ih =>
    cases hp : (p.1 == k) with
    | false =>
      rw [alookup_cons_neg hp] at h
      rw [List.map_cons, alookup_cons_neg (p := (p.1, (alookup u p.1).getD p.2)) hp]
      exact ih h
    | true =>
      rw [alookup_cons_pos hp] at h
      have hk : p.1 = k := by simpa using hp
      rw [List.map_cons, alookup_cons_pos (p := (p.1, (alookup u p.1).getD p.2)) hp]
      injection h with h2
      rw [hk, h2]

theorem alookup_mapMerge_none {d : Entries} (u : Entries) {k : String}
    (h : alookup d k = none) :
    alookup (d.map (fun e => ((e.1 : String), (alookup u e.1).getD e.2))) k = none := by
  induction d with
  | nil => rfl
  | cons p l ih =>
    cases hp : (p.1 == k) with
    | false =>
      rw [alookup_cons_neg hp] at h
      rw [List.map_cons, alookup_cons_neg (p := (p.1, (alookup u p.1).getD p.2)) hp]
      exact ih h
    | true =>
      rw [alookup_cons_pos hp] at h
      exact absurd h (by simp)

theorem alookup_filterOut {d : Entries} {u : Entries} {k : String} {v : String}
    (hd : alookup d k = none) (hu : alookup u k = some v) :
    alookup (u.filter (fun e => (alookup d e.1).isNone)) k = some v := by
  induction u with
  | nil => simp [alookup] at hu
  | cons q u' ih =>
    cases hq : (q.1 == k) with
    | false =>
      rw [alookup_cons_neg hq] at hu
      cases hcond : (alookup d q.1).isNone with
      | false =>
        rw [List.filter_cons, if_neg (by simp [hcond])]
        exact ih hu
      | true =>
        rw [List.filter_cons, if_pos (by simp [hcond]), alookup_cons_neg hq]
        exact ih hu
    | true =>
      rw [alookup_cons_pos hq] at hu
      have hk : q.1 = k := by simpa using hq
      have hcond : (alookup d q.1).isNone = true := by rw [hk, hd]; rfl
      rw [List.filter_cons, if_pos (by simp [hcond]), alookup_cons_pos hq]
      exact hu

theorem alookup_dictUpdate_right (d : Entries) {u : Entries} {k : String} {v : String}
    (h : alookup u k = some v) : alookup (dictUpdate d u) k = some v := by
  unfold dictUpdate
  cases hd : alookup d k with
  | some w =>
    have := alookup_mapMerge (d := d) u hd
    rw [h] at this
    exact alookup_append_some _ this
  | none =>
    rw [alookup_append_none _ (alookup_mapMerge_none u hd)]
    exact alookup_filterOut hd h

theorem dictUpdate_nil_left (u : Entries) : dictUpdate [] u = u := by
  unfold dictUpdate
  have : u.filter (fun e => (alookup ([] : Entries) e.1).isNone) = u := by
    induction u with
    | nil => rfl
    | cons q u' ih => rw [List.filter_cons, if_pos (by rfl)]; rw [ih]
  rw [this]
  rfl

theorem dictUpdate_nil_right (d : Entries) : dictUpdate d [] = d := by
  unfold dictUpdate
  have h1 : d.map (fun e => ((e.1 : String), (alookup ([] : Entries) e.1).getD e.2)) = d := by
    induction d with
    | nil => rfl
    | cons p l ih =>
      rw [List.map_cons, ih]
      rfl
  rw [h1]
  exact List.append_nil d

theorem alookup_mem {α : Type} {l : List (String × α)} {s : String} {v : α}
    (h : alookup l s = some v) : ∃ p, p ∈ l ∧ p.1 = s ∧ p.2 = v := by
  induction l with
  | nil => simp [alookup] at h
  | cons q l ih =>
    cases hq : (q.1 == s) with
    | true =>
      rw [alookup_cons_pos hq] at h
      injection h with h2
      exact ⟨q, by simp, by simpa using hq, h2⟩
    | false =>
      rw [alookup_cons_neg hq] at h
      obtain ⟨p, hp, h1, h2⟩ := ih h
      exact ⟨p, by simp [hp], h1, h2⟩

/-! Interpolation on values without `%` is the identity, and such values
always pass `before_set`. -/

theorem scanGo_noPct (d : Entries) (res : String → Except INIErr (List Char)) :
    ∀ (l : List Char) (gas : Nat), (∀ ch ∈ l, ch ≠ '%') → l.length ≤ gas →
      scanGo d res gas l = .ok l := by
  intro l
  induction l with
  | nil =>
    intro gas _ _
    cases gas <;> rfl
  | cons c r ih =>
    intro gas hn hlen
    cases gas with
    | zero => simp at hlen
    | succ g =>
      have hc : c ≠ '%' := hn c (by simp)
      have hg : r.length ≤ g := by
        simp only [List.length_cons] at hlen
        omega
      simp only [scanGo]
      rw [if_neg hc, ih g (fun ch hch => hn ch (by simp [hch])) hg]
      rfl

theorem interpolateValue_noPct (d : Entries) (v : String)
    (h : ∀ ch ∈ v.data, ch ≠ '%') : interpolateValue d v = .ok v := by
  have h1 : interpolateValue d v
      = (scanGo d (fun w => interpDepthGo d 9 w) v.data.length v.data).map
          (fun t => String.mk t) := rfl
  rw [h1, scanGo_noPct _ _ v.data v.data.length h (Nat.le_refl _)]
  rfl

theorem stripDoublePct_noPct :
    ∀ (l : List Char), (∀ ch ∈ l, ch ≠ '%') → stripDoublePct l = l := by
  intro l
  induction l with
  | nil => intro _; rfl
  | cons c r ih =>
    intro hn
    have hc : c ≠ '%' := hn c (by simp)
    rw [stripDoublePct.eq_def]
    dsimp only
    rw [if_neg hc, ih (fun ch hch => hn ch (by simp [hch]))]

theorem stripRefsGo_noPct :
    ∀ (l : List Char) (gas : Nat), (∀ ch ∈ l, ch ≠ '%') → stripRefsGo gas l = l := by
  intro l
  induction l with
  | nil => intro gas _; cases gas <;> rfl
  | cons c r ih =>
    intro gas hn
    cases gas with
    | zero => rfl
    | succ g =>
      have hc : c ≠ '%' := hn c (by simp)
      simp only [stripRefsGo]
      rw [if_neg hc, ih g (fun ch hch => hn ch (by simp [hch]))]

theorem beforeSetOk_noPct (v : String) (h : ∀ ch ∈ v.data, ch ≠ '%') :
    beforeSetOk v = true := by
  unfold beforeSetOk
  rw [stripDoublePct_noPct _ h, stripRefsGo_noPct _ _ h]
  rw [List.all_eq_true]
  intro ch hch
  simpa using h ch hch

/-! None of the query keywords touches the state: every branch of their
bodies returns the input state unchanged. -/

theorem get_INI_value_state (st : INILibrary) (s k : String) :
    (get_INI_value st s k).2 = st := by
  obtain ⟨cfg, fl⟩ := st
  cases cfg with
  | none => rfl
  | some c =>
    unfold get_INI_value
    dsimp only
    split
    · rfl
    · split <;> rfl

theorem get_all_keys_and_values_state (st : INILibrary) (s : String) :
    (get_all_keys_and_values st s).2 = st := by
  obtain ⟨cfg, fl⟩ := st
  cases cfg with
  | none => rfl
  | some c =>
    unfold get_all_keys_and_values
    dsimp only
    split <;> rfl

theorem get_values_list_state (st : INILibrary) (s k : String) :
    (get_values_list st s k).2 = st := by
  obtain ⟨cfg, fl⟩ := st
  cases cfg with
  | none => rfl
  | some c =>
    unfold get_values_list
    dsimp only
    split
    · rfl
    · split
      · rfl
      · split <;> rfl

theorem section_exists_state (st : INILibrary) (s : String) :
    (section_exists st s).2 = st := by
  obtain ⟨cfg, fl⟩ := st
  cases cfg <;> rfl

theorem key_exists_state (st : INILibrary) (s k : String) :
    (key_exists st s k).2 = st := by
  obtain ⟨cfg, fl⟩ := st
  cases cfg with
  | none => rfl
  | some c =>
    unfold key_exists
    dsimp only
    split <;> rfl

/-- C3: `Load INI File` on a path that does not exist under the working
directory fails with the file-not-found error and leaves both the loaded
parser and the recorded source path exactly as they were before the call. -/
theorem C3_load_missing_path_state_unchanged (fs : FileSystem) (st : INILibrary)
    (p : String) (b : Bool) (h : fs.readFile (fs.cwd ++ "/" ++ p) = none) :
    load_INI_file fs st p b = (.error .fileNotFound, st) := by
  simp [load_INI_file, h]

/-- C3 witness: loading a missing file from the concrete file system fails
with file-not-found and returns the unloaded state unchanged. -/
theorem C3_load_missing_path_state_unchanged_witness :
    load_INI_file fsEx stU "nope.ini" false = (.error .fileNotFound, stU) :=
  C3_load_missing_path_state_unchanged fsEx stU "nope.ini" false rfl

/-- C2: `Get Values List` never surfaces its failures: with no parser
loaded, with a missing section, and with a section whose merged item list
is empty, the errors raised inside the `try` are swallowed by the
`Exception(e)` line (which lacks a `raise`) and the keyword falls through,
returning Python `None` in all three cases. -/
theorem C2_get_values_list_swallows_failures :
    get_values_list stU "s" "k" = (none, stU)
      ∧ get_values_list stI "nope" "k" = (none, stI)
      ∧ get_values_list stE "e" "k" = (none, stE) :=
  ⟨rfl, rfl, rfl⟩

/-- C10: the query keywords `Get INI Value`, `Get All Keys And Values`,
`Get Values List`, `Section Exists` and `Key Exists` never change the
adapter state: whatever the starting state and arguments, and whether the
call succeeds or fails, the state component of the result is the input
state. -/
theorem C10_queries_preserve_state (st : INILibrary) (s k : String) :
    (get_INI_value st s k).2 = st
      ∧ (get_all_keys_and_values st s).2 = st
      ∧ (get_values_list st s k).2 = st
      ∧ (section_exists st s).2 = st
      ∧ (key_exists st s k).2 = st :=
  ⟨get_INI_value_state st s k, get_all_keys_and_values_state st s,
   get_values_list_state st s k, section_exists_state st s, key_exists_state st s k⟩

/-- C9: on a loaded parser the existence test and the guards disagree about
the default section name: `Section Exists` (`has_section`) reports `false`
for `"DEFAULT"` while the `section in parser` guard used by `Get`, `Set`,
`Key Exists`, `Get All Keys And Values` and `Get Values List` reports
`true`; consequently `Set INI Value` on `"DEFAULT"` succeeds without
creating any section (it writes to the defaults), `Section Exists` still
reports `false` afterwards, and `Key Exists` answers from the defaults
instead of failing with section-not-found. -/
theorem C9_default_section_discrepancy (st : INILibrary) (c : Config) (k v : String)
    (hst : st.config = some c) (hds : c.hasSection "DEFAULT" = false)
    (hv : ∀ ch ∈ v.data, ch ≠ '%') :
    c.containsSection "DEFAULT" = true
      ∧ (section_exists st "DEFAULT").1 = .ok false
      ∧ (set_INI_value st "DEFAULT" k v).1 = .ok ()
      ∧ (∃ c2, (set_INI_value st "DEFAULT" k v).2.config = some c2
          ∧ c2.sections = c.sections
          ∧ (section_exists (set_INI_value st "DEFAULT" k v).2 "DEFAULT").1 = .ok false)
      ∧ (∀ k2, (key_exists st "DEFAULT" k2).1 = .ok (c.hasOptionB "DEFAULT" k2)) := by
  have hbs : beforeSetOk v = true := beforeSetOk_noPct v hv
  have hcont : c.containsSection "DEFAULT" = true := by
    simp [Config.containsSection]
  have hset : set_INI_value st "DEFAULT" k v
      = (.ok (), ⟨some ⟨dictSet c.defaults (optionxform k) v, c.sections, c.interp⟩, st.inifile⟩) := by
    simp only [set_INI_value, hst]
    rw [if_pos hcont]
    simp only [Config.setOpt]
    rw [if_neg (by simp [hbs])]
    rfl
  refine ⟨hcont, ?_, ?_, ?_, ?_⟩
  · simp [section_exists, hst, hds]
  · rw [hset]
  · refine ⟨⟨dictSet c.defaults (optionxform k) v, c.sections, c.interp⟩, by rw [hset], rfl, ?_⟩
    rw [hset]
    simp only [section_exists]
    exact congrArg Except.ok hds
  · intro k2
    simp [key_exists, hst, hcont]

/-- C9 witness: on a concrete loaded state, setting a key in `"DEFAULT"`
succeeds and `Section Exists "DEFAULT"` still answers `false`. -/
theorem C9_default_section_discrepancy_witness :
    (set_INI_value st0 "DEFAULT" "k" "v").1 = .ok ()
      ∧ (section_exists (set_INI_value st0 "DEFAULT" "k" "v").2 "DEFAULT").1 = .ok false := by
  obtain ⟨-, -, h3, ⟨c2, -, -, h4⟩, -⟩ :=
    C9_default_section_discrepancy st0 cfg0 "k" "v" rfl rfl (by decide)
  exact ⟨h3, h4⟩

/-- C6 counterexample: on a loaded parser `"DEFAULT"` does not exist as a
section, yet `Set INI Value` on it succeeds without creating it, and
`Section Exists` still answers `false` afterwards — refuting the claim at
the section name `"DEFAULT"`. -/
theorem C6_set_creates_section_counterexample :
    cfg0.hasSection "DEFAULT" = false
      ∧ (set_INI_value st0 "DEFAULT" "k" "v").1 = .ok ()
      ∧ (section_exists (set_INI_value st0 "DEFAULT" "k" "v").2 "DEFAULT").1 = .ok false :=
  ⟨rfl, rfl, rfl⟩

theorem setOpt_ok_hasSection {c1 : Config} {s k v : String} {c2 : Config}
    (h : c1.setOpt s k v = .ok c2) : c2.hasSection s = c1.hasSection s := by
  unfold Config.setOpt at h
  by_cases hb : (c1.interp && !(beforeSetOk v)) = true
  · rw [if_pos hb] at h
    cases h
  · rw [if_neg hb] at h
    injection h with h2
    subst h2
    by_cases hs : ((s == "" || s == "DEFAULT") : Bool) = true
    · rw [if_pos hs]
      rfl
    · rw [if_neg hs]
      simp only [Config.hasSection, alookup_map_updateEntry_self]
      cases alookup c1.sections s <;> rfl

/-- C6 (amended): for every loaded parser and every section name other
than `"DEFAULT"` that does not exist, `Set INI Value` creates the section —
`add_section` runs before `parser.set`, so it is present even if value
validation then fails — and a subsequent `Section Exists` returns `true`.
For `"DEFAULT"` itself the guard skips `add_section` and `Section Exists`
stays `false` (see the counterexample). -/
theorem C6_set_creates_section_amended (st : INILibrary) (c : Config) (s k v : String)
    (hst : st.config = some c) (hns : c.hasSection s = false) (hsd : s ≠ "DEFAULT") :
    ∃ c2, (set_INI_value st s k v).2.config = some c2
      ∧ c2.hasSection s = true
      ∧ (section_exists (set_INI_value st s k v).2 s).1 = .ok true := by
  have hcont : c.containsSection s = false := by
    simp [Config.containsSection, hns, beq_eq_false_iff_ne.mpr hsd]
  have hnone : alookup c.sections s = none := by
    cases h' : alookup c.sections s
    · rfl
    · exfalso
      have : c.hasSection s = true := by simp [Config.hasSection, h']
      rw [this] at hns
      cases hns
  have hlk : alookup (c.sections ++ [(s, [])]) s = some ([] : Entries) := by
    rw [alookup_append_none _ hnone]
    exact alookup_cons_pos (by simp)
  have hs1 : (c.addSection s).hasSection s = true := by
    simp [Config.hasSection, Config.addSection, hlk]
  have hred : set_INI_value st s k v
      = (match (c.addSection s).setOpt s k v with
         | .ok c2 => (.ok (), { st with config := some c2 })
         | .error e => (.error e, { st with config := some (c.addSection s) })) := by
    simp only [set_INI_value, hst]
    rw [if_neg (by simp [hcont])]
  cases hso : (c.addSection s).setOpt s k v with
  | ok c2 =>
    rw [hso] at hred
    refine ⟨c2, by rw [hred], ?_, ?_⟩
    · rw [setOpt_ok_hasSection hso, hs1]
    · rw [hred]
      simp only [section_exists]
      rw [setOpt_ok_hasSection hso, hs1]
  | error e =>
    rw [hso] at hred
    refine ⟨c.addSection s, by rw [hred], hs1, ?_⟩
    rw [hred]
    simp only [section_exists]
    rw [hs1]

/-- C6 witness: setting a key in a fresh section of a concrete loaded state
makes `Section Exists` answer `true`. -/
theorem C6_set_creates_section_amended_witness :
    (section_exists (set_INI_value st0 "new" "k" "v").2 "new").1 = .ok true := by
  obtain ⟨c2, -, -, h3⟩ :=
    C6_set_creates_section_amended st0 cfg0 "new" "k" "v" rfl rfl (by decide)
  exact h3

/-- C1 counterexample: loading `app.ini` with the flag `false` resolves the
same-section reference `%(a)s` (Get returns `"x"`), while loading with the
flag `true` returns it literally — exactly the opposite of the claimed
direction, because the truthy flag selects configparser's no-op base
`Interpolation()` and the default parser uses `BasicInterpolation()`. -/
theorem C1_interpolation_flag_counterexample :
    (load_INI_file fsEx stU "app.ini" false).1 = .ok ()
      ∧ (get_INI_value (load_INI_file fsEx stU "app.ini" false).2 "s" "b").1 = .ok "x"
      ∧ (get_INI_value (load_INI_file fsEx stU "app.ini" true).2 "s" "b").1 = .ok "%(a)s"
      ∧ alookup exSec "b" = some "%(a)s"
      ∧ ("x" : String) ≠ "%(a)s" :=
  ⟨rfl, rfl, rfl, rfl, by decide⟩

/-- C1 (amended): a successful load stores the file's parsed content with
the interpolation mode inverted relative to the flag (`interp = !b`), so a
subsequent read resolves `%(key)s` references against the section's merged
map exactly when the flag is `false`, and returns the stored value
literally when the flag is `true`. -/
theorem C1_interpolation_flag_amended (fs : FileSystem) (st : INILibrary)
    (p : String) (b : Bool) (d : INIData)
    (h : fs.readFile (fs.cwd ++ "/" ++ p) = some d) :
    load_INI_file fs st p b
      = (.ok (), ⟨some ⟨d.defaults, d.sections, !b⟩, some p⟩)
      ∧ ∀ (s k : String) (c2 : Config),
          (load_INI_file fs st p b).2.config = some c2 →
          c2.getValue s k
            = (match alookup (c2.mergedMap s) (optionxform k) with
               | none => .error .keyNotFound
               | some v => if b then .ok v else interpolateValue (c2.mergedMap s) v) := by
  have h1 : load_INI_file fs st p b
      = (.ok (), ⟨some ⟨d.defaults, d.sections, !b⟩, some p⟩) := by
    simp [load_INI_file, h]
  refine ⟨h1, ?_⟩
  intro s k c2 hc2
  rw [h1] at hc2
  injection hc2 with hc2'
  subst hc2'
  simp only [Config.getValue]
  cases hv : alookup (Config.mergedMap ⟨d.defaults, d.sections, !b⟩ s) (optionxform k) with
  | none => rfl
  | some v => cases b <;> rfl

/-- C1 witness: loading the concrete file with the flag `true` produces the
parser with interpolation off. -/
theorem C1_interpolation_flag_amended_witness :
    load_INI_file fsEx stU "app.ini" true
      = (.ok (), ⟨some ⟨dataEx.defaults, dataEx.sections, !true⟩, some "app.ini"⟩) :=
  (C1_interpolation_flag_amended fsEx stU "app.ini" true dataEx rfl).1

/-- C4 counterexample: with the default interpolating parser, Get returns
the interpolated value rather than the stored one, and can fail with an
interpolation error even though the section and key both exist; a key
living only in the defaults is served instead of failing key-not-found. -/
theorem C4_get_counterexample :
    (get_INI_value stI "s" "b").1 = .ok "x"
      ∧ alookup exSec "b" = some "%(a)s"
      ∧ ("x" : String) ≠ "%(a)s"
      ∧ (get_INI_value stI "s" "c").1 = .error .interpMissing
      ∧ alookup [("a", "x")] "d" = none
      ∧ (get_INI_value stD "s" "d").1 = .ok "v" :=
  ⟨rfl, rfl, by decide, rfl, rfl, rfl⟩

/-- C4 (amended): `Get INI Value` routes errors along the code's guards —
not-loaded first, then the `section in parser` containment test (which
treats `"DEFAULT"` as present), then `has_option` (section or defaults) —
and otherwise returns `parser.get`: the merged, defaults-aware value with
interpolation applied exactly when the parser interpolates, which may
itself fail with an interpolation error.  The state is never modified. -/
theorem C4_get_error_routing_amended (st : INILibrary) (c : Config) (s k : String) :
    (get_INI_value st s k).2 = st
      ∧ (st.config = none → (get_INI_value st s k).1 = .error .notLoaded)
      ∧ (st.config = some c → c.containsSection s = false →
          (get_INI_value st s k).1 = .error .sectionNotFound)
      ∧ (st.config = some c → c.containsSection s = true → c.hasOptionB s k = false →
          (get_INI_value st s k).1 = .error .keyNotFound)
      ∧ (st.config = some c → c.containsSection s = true → c.hasOptionB s k = true →
          (get_INI_value st s k).1 = c.getValue s k) := by
  refine ⟨get_INI_value_state st s k, ?_, ?_, ?_, ?_⟩
  · intro h
    simp [get_INI_value, h]
  · intro h hcf
    simp [get_INI_value, h, hcf]
  · intro h hct hof
    simp [get_INI_value, h, hct, hof]
  · intro h hct hot
    simp [get_INI_value, h, hct, hot]

/-- C4 witness: the four routes of the amended theorem at concrete
inputs. -/
theorem C4_get_error_routing_amended_witness :
    (get_INI_value stU "s" "b").1 = .error .notLoaded
      ∧ (get_INI_value stI "nope" "b").1 = .error .sectionNotFound
      ∧ (get_INI_value stI "s" "zz").1 = .error .keyNotFound
      ∧ (get_INI_value stI "s" "b").1 = cfgI.getValue "s" "b" :=
  ⟨(C4_get_error_routing_amended stU cfgI "s" "b").2.1 rfl,
   (C4_get_error_routing_amended stI cfgI "nope" "b").2.2.1 rfl rfl,
   (C4_get_error_routing_amended stI cfgI "s" "zz").2.2.2.1 rfl rfl rfl,
   (C4_get_error_routing_amended stI cfgI "s" "b").2.2.2.2 rfl rfl rfl⟩

/-- C7: when a section of a loaded, well-formed parser (no section is named
`""` or `"DEFAULT"`, as no parsed document ever is) contains the
(case-folded) key, `Remove INI Key` succeeds and removes exactly that
entry: the section is still present (possibly empty), no entry with that
key remains in it, its other entries are preserved in order, every other
section is untouched, and the defaults are untouched. -/
theorem C7_remove_key_frame (st : INILibrary) (c : Config) (s k : String) (vars : Entries)
    (hst : st.config = some c)
    (hvars : alookup c.sections s = some vars)
    (hwf : ∀ p ∈ c.sections, p.1 ≠ "" ∧ p.1 ≠ "DEFAULT")
    (hk : (alookup vars (optionxform k)).isSome = true) :
    (remove_INI_key st s k).1 = .ok ()
      ∧ ∃ c2, (remove_INI_key st s k).2.config = some c2
          ∧ c2.defaults = c.defaults
          ∧ c2.hasSection s = true
          ∧ alookup c2.sections s = some (vars.filter (fun e => e.1 != optionxform k))
          ∧ (vars.filter (fun e => e.1 != optionxform k)).all
              (fun e => e.1 != optionxform k) = true
          ∧ (∀ t, t ≠ s → alookup c2.sections t = alookup c.sections t) := by
  obtain ⟨p, hp, hp1, hp2⟩ := alookup_mem hvars
  have hse : s ≠ "" := fun h => (hwf p hp).1 (by rw [hp1, h])
  have hsd : s ≠ "DEFAULT" := fun h => (hwf p hp).2 (by rw [hp1, h])
  have hseb : (s == "") = false := beq_eq_false_iff_ne.mpr hse
  have hsdb : (s == "DEFAULT") = false := beq_eq_false_iff_ne.mpr hsd
  have hcont : c.containsSection s = true := by
    simp [Config.containsSection, Config.hasSection, hvars]
  have hopt : c.hasOptionB s k = true := by
    simp [Config.hasOptionB, hseb, hsdb, hvars, hk]
  have h1 : remove_INI_key st s k
      = (.ok (), ⟨some ⟨c.defaults,
          c.sections.map (updateEntry s (fun d => d.filter (fun e => e.1 != optionxform k))),
          c.interp⟩, st.inifile⟩) := by
    simp only [remove_INI_key, hst]
    rw [if_neg (by simp [hcont]), if_neg (by simp [hopt])]
    simp only [Config.removeOpt]
    rw [if_neg (by simp [hseb, hsdb])]
  have hsec2 : alookup (c.sections.map
        (updateEntry s (fun d => d.filter (fun e => e.1 != optionxform k)))) s
      = some (vars.filter (fun e => e.1 != optionxform k)) := by
    rw [alookup_map_updateEntry_self, hvars]
    rfl
  refine ⟨by rw [h1], ?_⟩
  refine ⟨⟨c.defaults,
    c.sections.map (updateEntry s (fun d => d.filter (fun e => e.1 != optionxform k))),
    c.interp⟩, by rw [h1], rfl, ?_, hsec2, ?_, ?_⟩
  · simp [Config.hasSection, hsec2]
  · rw [List.all_eq_true]
    intro e he
    exact (List.mem_filter.mp he).2
  · intro t ht
    exact alookup_map_updateEntry_ne _ _ ht

/-- C7 witness: removing the key `a` from the two-entry section `s` of the
concrete state succeeds. -/
theorem C7_remove_key_frame_witness :
    (remove_INI_key stW "s" "a").1 = .ok () :=
  (C7_remove_key_frame stW cfgW "s" "a" [("a", "x"), ("p", "8080")]
    rfl rfl (by decide) rfl).1

/-- C8 counterexample: `Get Values List` scans the section's merged,
interpolated item view, not the section's own entries: a key living only in
the defaults is reported (`["v"]` instead of the claimed `[]`), and an
interpolating parser reports the resolved value `"x"` instead of the stored
`%(a)s`. -/
theorem C8_values_list_counterexample :
    (get_values_list stD "s" "d").1 = some ["v"]
      ∧ alookup cfgD.sections "s" = some [("a", "x")]
      ∧ ([("a", "x")].filter (fun e => e.1 == "d")).map (fun e => e.2) = ([] : List String)
      ∧ some ["v"] ≠ some ([] : List String)
      ∧ (get_values_list stI2 "s2" "b").1 = some ["x"]
      ∧ alookup [("a", "x"), ("b", "%(a)s")] "b" = some "%(a)s"
      ∧ ("x" : String) ≠ "%(a)s" :=
  ⟨rfl, rfl, rfl, by decide, rfl, rfl, by decide⟩

/-- C8 (amended): when the loaded parser has no default entries and does
not interpolate, `Get Values List` on an existing non-empty section (other
than `"DEFAULT"`) returns exactly the ordered values of the section's
entries whose stored key equals the given key, and the empty list when none
matches.  In general the scan runs over the merged, interpolated item view
(see the counterexample). -/
theorem C8_values_list_amended (st : INILibrary) (c : Config) (s k : String) (vars : Entries)
    (hst : st.config = some c)
    (hdef : c.defaults = [])
    (hint : c.interp = false)
    (hsd : s ≠ "DEFAULT")
    (hvars : alookup c.sections s = some vars)
    (hne : vars ≠ []) :
    (get_values_list st s k).1
      = some ((vars.filter (fun e => e.1 == k)).map (fun e => e.2)) := by
  have hcont : c.containsSection s = true := by
    simp [Config.containsSection, Config.hasSection, hvars]
  have hmm : c.mergedMap s = vars := by
    rw [Config.mergedMap, if_neg (by simp [beq_eq_false_iff_ne.mpr hsd]), hdef, hvars]
    exact dictUpdate_nil_left vars
  have hitems : c.itemsE s = .ok vars := by
    simp [Config.itemsE, hmm, hint]
  have hlen : (vars.length == 0) = false := by
    cases vars
    · exact absurd rfl hne
    · rfl
  simp only [get_values_list, hst]
  rw [if_neg (by simp [hcont]), hitems]
  dsimp only
  rw [if_neg (by simp [hlen])]

/-- C8 witness: on a concrete state without defaults and without
interpolation, the keyword returns the single matching value. -/
theorem C8_values_list_amended_witness :
    (get_values_list stW "s" "p").1 = some ["8080"] :=
  C8_values_list_amended stW cfgW "s" "p" [("a", "x"), ("p", "8080")]
    rfl rfl rfl (by decide) rfl (by decide)

theorem mergedMap_other {c : Config} {s : String} {vars : Entries}
    (hsd : (s == "DEFAULT") = false) (hvs : alookup c.sections s = some vars) :
    c.mergedMap s = dictUpdate c.defaults vars := by
  unfold Config.mergedMap
  rw [if_neg (by simp [hsd]), hvs]
  rfl

theorem hasOptionB_sect {c : Config} {s k : String} {vars : Entries}
    (hse : (s == "") = false) (hsd : (s == "DEFAULT") = false)
    (hvs : alookup c.sections s = some vars)
    (hk : (alookup vars (optionxform k)).isSome = true) :
    c.hasOptionB s k = true := by
  unfold Config.hasOptionB
  rw [if_neg (by simp [hse, hsd]), hvs]
  simp [hk]

theorem get_after_ok (c2 : Config) {st2 : INILibrary} {s k v : String}
    (h2 : st2.config = some c2)
    (hct : c2.containsSection s = true)
    (hopt : c2.hasOptionB s k = true)
    (hval : alookup (c2.mergedMap s) (optionxform k) = some v)
    (hv : ∀ ch ∈ v.data, ch ≠ '%') :
    (get_INI_value st2 s k).1 = .ok v := by
  have hg : c2.getValue s k = .ok v := by
    simp only [Config.getValue, hval]
    cases hi : c2.interp with
    | false => rfl
    | true => exact interpolateValue_noPct _ v hv
  simp only [get_INI_value, h2]
  rw [if_neg (by simp [hct]), if_neg (by simp [hopt]), hg]

theorem set_write_get (c1 : Config) {st2 : INILibrary} {s k v : String} {vars0 : Entries}
    (hse : (s == "") = false) (hsd : (s == "DEFAULT") = false)
    (hvs : alookup c1.sections s = some vars0)
    (h2 : st2.config = some ⟨c1.defaults,
        c1.sections.map (updateEntry s (fun d => dictSet d (optionxform k) v)), c1.interp⟩)
    (hv : ∀ ch ∈ v.data, ch ≠ '%') :
    (get_INI_value st2 s k).1 = .ok v := by
  have hvars' : alookup (c1.sections.map
        (updateEntry s (fun d => dictSet d (optionxform k) v))) s
      = some (dictSet vars0 (optionxform k) v) := by
    rw [alookup_map_updateEntry_self, hvs]
    rfl
  apply get_after_ok _ h2 ?_ ?_ ?_ hv
  · simp [Config.containsSection, Config.hasSection, hvars']
  · exact hasOptionB_sect hse hsd hvars' (by rw [alookup_dictSet_self]; rfl)
  · rw [mergedMap_other hsd hvars']
    exact alookup_dictUpdate_right _ (alookup_dictSet_self _ _ _)

/-- C5 counterexample: under the default interpolating parser, setting the
value `%(a)s` and reading it back with the same section and key yields the
interpolated `"x"`, not the value that was just set. -/
theorem C5_set_get_counterexample :
    (set_INI_value stI "s" "b2" "%(a)s").1 = .ok ()
      ∧ (get_INI_value (set_INI_value stI "s" "b2" "%(a)s").2 "s" "b2").1 = .ok "x"
      ∧ ("x" : String) ≠ "%(a)s" :=
  ⟨rfl, rfl, by decide⟩

/-- C5 (amended): on a loaded, well-formed parser (no section is named `""`
or `"DEFAULT"`, as in any parsed document) and for any value containing no
`%` character, `Set INI Value` succeeds and an immediate `Get INI Value`
with the same section and key returns exactly the value just set — for
every section name, including new sections and `"DEFAULT"` itself.  Values
containing `%` are either rejected by `before_set` or transformed by
interpolation on the way back (see the counterexample). -/
theorem C5_set_get_roundtrip_amended (st : INILibrary) (c : Config) (s k v : String)
    (hst : st.config = some c)
    (hwf : ∀ p ∈ c.sections, p.1 ≠ "" ∧ p.1 ≠ "DEFAULT")
    (hv : ∀ ch ∈ v.data, ch ≠ '%') :
    (set_INI_value st s k v).1 = .ok ()
      ∧ (get_INI_value (set_INI_value st s k v).2 s k).1 = .ok v := by
  have hbs : beforeSetOk v = true := beforeSetOk_noPct v hv
  by_cases hsd : s = "DEFAULT"
  · subst hsd
    have hcont : c.containsSection "DEFAULT" = true := by
      simp [Config.containsSection]
    have h1 : set_INI_value st "DEFAULT" k v
        = (.ok (), ⟨some ⟨dictSet c.defaults (optionxform k) v, c.sections, c.interp⟩,
            st.inifile⟩) := by
      simp only [set_INI_value, hst]
      rw [if_pos hcont]
      simp only [Config.setOpt]
      rw [if_neg (by simp [hbs])]
      rfl
    refine ⟨by rw [h1], ?_⟩
    rw [h1]
    apply get_after_ok
      ⟨dictSet c.defaults (optionxform k) v, c.sections, c.interp⟩ rfl ?_ ?_ ?_ hv
    · simp [Config.containsSection]
    · show (alookup (dictSet c.defaults (optionxform k) v) (optionxform k)).isSome = true
      rw [alookup_dictSet_self]
      rfl
    · exact alookup_dictSet_self _ _ _
  · have hsdb : (s == "DEFAULT") = false := beq_eq_false_iff_ne.mpr hsd
    by_cases hse : s = ""
    · subst hse
      have hnone : alookup c.sections "" = none := by
        cases h' : alookup c.sections ""
        · rfl
        · exfalso
          obtain ⟨p, hp, h1', -⟩ := alookup_mem h'
          exact (hwf p hp).1 h1'
      have hcont : c.containsSection "" = false := by
        simp [Config.containsSection, Config.hasSection, hnone, hsdb]
      have hlk : alookup (c.sections ++ [("", [])]) "" = some ([] : Entries) := by
        rw [alookup_append_none _ hnone]
        exact alookup_cons_pos (by simp)
      have h1 : set_INI_value st "" k v
          = (.ok (), ⟨some ⟨dictSet c.defaults (optionxform k) v,
              c.sections ++ [("", [])], c.interp⟩, st.inifile⟩) := by
        simp only [set_INI_value, hst]
        rw [if_neg (by simp [hcont])]
        simp only [Config.addSection, Config.setOpt]
        rw [if_neg (by simp [hbs])]
        rfl
      refine ⟨by rw [h1], ?_⟩
      rw [h1]
      apply get_after_ok
        ⟨dictSet c.defaults (optionxform k) v,
          c.sections ++ [("", [])], c.interp⟩ rfl ?_ ?_ ?_ hv
      · simp [Config.containsSection, Config.hasSection, hlk]
      · show (alookup (dictSet c.defaults (optionxform k) v) (optionxform k)).isSome = true
        rw [alookup_dictSet_self]
        rfl
      · rw [mergedMap_other hsdb hlk, dictUpdate_nil_right]
        exact alookup_dictSet_self _ _ _
    · have hseb : (s == "") = false := beq_eq_false_iff_ne.mpr hse
      by_cases hhs : c.hasSection s = true
      · obtain ⟨vars, hvars⟩ : ∃ vars, alookup c.sections s = some vars := by
          cases h' : alookup c.sections s
          · simp [Config.hasSection, h'] at hhs
          · exact ⟨_, rfl⟩
        have hcont : c.containsSection s = true := by
          simp [Config.containsSection, Config.hasSection, hvars]
        have h1 : set_INI_value st s k v
            = (.ok (), ⟨some ⟨c.defaults,
                c.sections.map (updateEntry s (fun d => dictSet d (optionxform k) v)),
                c.interp⟩, st.inifile⟩) := by
          simp only [set_INI_value, hst]
          rw [if_pos hcont]
          simp only [Config.setOpt]
          rw [if_neg (by simp [hbs]), if_neg (by simp [hseb, hsdb])]
        refine ⟨by rw [h1], ?_⟩
        rw [h1]
        exact set_write_get c hseb hsdb hvars rfl hv
      · have hnone : alookup c.sections s = none := by
          cases h' : alookup c.sections s
          · rfl
          · exact absurd (by simp [Config.hasSection, h']) hhs
        have hcont : c.containsSection s = false := by
          simp [Config.containsSection, Config.hasSection, hnone, hsdb]
        have hlk : alookup (c.sections ++ [(s, [])]) s = some ([] : Entries) := by
          rw [alookup_append_none _ hnone]
          exact alookup_cons_pos (by simp)
        have h1 : set_INI_value st s k v
            = (.ok (), ⟨some ⟨c.defaults,
                (c.sections ++ [(s, [])]).map
                  (updateEntry s (fun d => dictSet d (optionxform k) v)),
                c.interp⟩, st.inifile⟩) := by
          simp only [set_INI_value, hst]
          rw [if_neg (by simp [hcont])]
          simp only [Config.addSection, Config.setOpt]
          rw [if_neg (by simp [hbs]), if_neg (by simp [hseb, hsdb])]
        refine ⟨by rw [h1], ?_⟩
        rw [h1]
        exact set_write_get (c.addSection s) hseb hsdb hlk rfl hv

/-- C5 witness: setting and reading back a `%`-free value on the concrete
well-formed state returns exactly the value set. -/
theorem C5_set_get_roundtrip_amended_witness :
    (get_INI_value (set_INI_value stW "s" "p" "9090").2 "s" "p").1 = .ok "9090" :=
  (C5_set_get_roundtrip_amended stW cfgW "s" "p" "9090" rfl (by decide) (by decide)).2
